import Mathlib

/-!
Verification of `src/kernel/gui/generate_toolbar_icons.py` (vib-OS).

The script renders a fixed catalog of eight toolbar icons onto transparent
RGBA canvases with PIL drawing primitives, packs each pixel into a 32-bit
ARGB word, and prints a C header (arrays, a lookup table, index constants)
to standard output.

The embedding below translates the script's pure computations directly.
PIL itself is third-party code that is not part of the repository; its
drawing primitives are modelled abstractly (a primitive touches some set
of pixel indices and writes a colour there), which is exactly the latitude
the design document grants: anti-aliased coverage is explicitly not a
contract, only canvas size, channel ranges and untouched-pixel defaults.
-/

/-- One RGBA pixel as PIL's `getdata` returns it: a quadruple of channels,
each an 8-bit value in the real program (modelled as `Nat`). -/
structure RGBA where
  r : Nat
  g : Nat
  b : Nat
  a : Nat
deriving DecidableEq, Repr

/-- The fully transparent pixel `(0, 0, 0, 0)` used to initialise every canvas
(`Image.new('RGBA', (size, size), (0, 0, 0, 0))`). -/
def zeroRGBA : RGBA := ⟨0, 0, 0, 0⟩

/-- Channels of an 8-bit RGBA pixel are each at most 255. -/
def PixelInRange (p : RGBA) : Prop :=
  p.r ≤ 255 ∧ p.g ≤ 255 ∧ p.b ≤ 255 ∧ p.a ≤ 255

instance (p : RGBA) : Decidable (PixelInRange p) := by
  unfold PixelInRange; infer_instance

/-- A PIL image as the script observes it: a width, a height, and the
row-major pixel list `list(img.getdata())` (row 0 left-to-right first). -/
structure Image where
  width : Nat
  height : Nat
  pixels : List RGBA
deriving DecidableEq, Repr

/-- Pixel packing from line 135 of the source:
`pixel = (a << 24) | (r << 16) | (g << 8) | b`. -/
def packPixel (p : RGBA) : Nat :=
  (p.a <<< 24) ||| (p.r <<< 16) ||| (p.g <<< 8) ||| p.b

/-- Unpacking via the inverse of the documented bit layout (spec §4.2):
alpha is bits 24-31, red bits 16-23, green bits 8-15, blue bits 0-7. -/
def unpackPixel (u : Nat) : RGBA :=
  ⟨(u >>> 16) &&& 255, (u >>> 8) &&& 255, u &&& 255, (u >>> 24) &&& 255⟩

theorem shiftLeft_lor_eq_add (x : Nat) :
    ∀ (k y : Nat), y < 2 ^ k → x <<< k ||| y = x * 2 ^ k + y := by
  intro k
  induction k generalizing x with
  | zero =>
    intro y hy
    have : y = 0 := by omega
    subst this
    simp [Nat.shiftLeft_zero]
  | succ k ih =>
    intro y hy
    have h2 : (2 : Nat) ^ (k + 1) = 2 * 2 ^ k := by ring
    have hy2 : y >>> 1 < 2 ^ k := by
      rw [Nat.shiftRight_one]
      omega
    have hbit : Nat.bit (y.testBit 0) (y >>> 1) = y := Nat.bit_testBit_zero_shiftRight_one y
    have hx : x <<< (k + 1) = Nat.bit false (x <<< k) := by
      rw [Nat.shiftLeft_succ]
      simp [Nat.bit]
    calc x <<< (k + 1) ||| y
        = Nat.bit false (x <<< k) ||| Nat.bit (y.testBit 0) (y >>> 1) := by rw [hx, hbit]
      _ = Nat.bit (false || y.testBit 0) ((x <<< k) ||| (y >>> 1)) := Nat.lor_bit _ _ _ _
      _ = Nat.bit (y.testBit 0) (x * 2 ^ k + y >>> 1) := by rw [Bool.false_or, ih _ _ hy2]
      _ = x * 2 ^ (k + 1) + y := by
          rw [Nat.shiftRight_one] at hbit ⊢
          rw [h2, show x * (2 * 2 ^ k) = 2 * (x * 2 ^ k) from by ring]
          cases hb : y.testBit 0 <;>
            simp only [hb, Nat.bit, cond_true, cond_false] at hbit ⊢ <;> omega

theorem packPixel_eq_linear (r g b a : Nat)
    (hr : r ≤ 255) (hg : g ≤ 255) (hb : b ≤ 255) (ha : a ≤ 255) :
    packPixel ⟨r, g, b, a⟩ = a * 16777216 + r * 65536 + g * 256 + b := by
  unfold packPixel
  rw [Nat.lor_assoc, Nat.lor_assoc]
  have h1 : g <<< 8 ||| b = g * 2 ^ 8 + b := shiftLeft_lor_eq_add g 8 b (by omega)
  have h2 : r <<< 16 ||| (g * 2 ^ 8 + b) = r * 2 ^ 16 + (g * 2 ^ 8 + b) :=
    shiftLeft_lor_eq_add r 16 _ (by omega)
  have h3 : a <<< 24 ||| (r * 2 ^ 16 + (g * 2 ^ 8 + b))
      = a * 2 ^ 24 + (r * 2 ^ 16 + (g * 2 ^ 8 + b)) :=
    shiftLeft_lor_eq_add a 24 _ (by omega)
  rw [h1, h2, h3]
  norm_num <;> omega

/-- C1: packing an in-range RGBA quadruple follows the documented bit layout
`(a<<24) | (r<<16) | (g<<8) | b`, the packed word fits in 32 bits, and
unpacking it via the inverse byte extraction recovers exactly `(r,g,b,a)`. -/
theorem C1_pack_unpack_roundtrip (r g b a : Nat)
    (hr : r ≤ 255) (hg : g ≤ 255) (hb : b ≤ 255) (ha : a ≤ 255) :
    packPixel ⟨r, g, b, a⟩ = (a <<< 24) ||| (r <<< 16) ||| (g <<< 8) ||| b ∧
    packPixel ⟨r, g, b, a⟩ < 2 ^ 32 ∧
    unpackPixel (packPixel ⟨r, g, b, a⟩) = ⟨r, g, b, a⟩ := by
  have hlin := packPixel_eq_linear r g b a hr hg hb ha
  refine ⟨rfl, ?_, ?_⟩
  · rw [hlin]; norm_num; omega
  · rw [hlin]
    unfold unpackPixel
    have h255 : (255 : Nat) = 2 ^ 8 - 1 := by norm_num
    rw [h255]
    simp only [Nat.shiftRight_eq_div_pow, Nat.and_pow_two_sub_one_eq_mod]
    have hrr : (a * 16777216 + r * 65536 + g * 256 + b) / 2 ^ 16 % 2 ^ 8 = r := by
      norm_num; omega
    have hgg : (a * 16777216 + r * 65536 + g * 256 + b) / 2 ^ 8 % 2 ^ 8 = g := by
      norm_num; omega
    have hbb : (a * 16777216 + r * 65536 + g * 256 + b) % 2 ^ 8 = b := by
      norm_num; omega
    have haa : (a * 16777216 + r * 65536 + g * 256 + b) / 2 ^ 24 % 2 ^ 8 = a := by
      norm_num; omega
    rw [hrr, hgg, hbb, haa]

/-- C1 witness at the concrete quadruple `(1, 2, 3, 4)`. -/
theorem C1_pack_unpack_roundtrip_witness :
    packPixel ⟨1, 2, 3, 4⟩ = ((4 : Nat) <<< 24) ||| ((1 : Nat) <<< 16) ||| ((2 : Nat) <<< 8) ||| 3 ∧
    packPixel ⟨1, 2, 3, 4⟩ < 2 ^ 32 ∧
    unpackPixel (packPixel ⟨1, 2, 3, 4⟩) = ⟨1, 2, 3, 4⟩ :=
  C1_pack_unpack_roundtrip 1 2 3 4 (by decide) (by decide) (by decide) (by decide)

/-- Uppercase hex digit (`0`-`9`, `A`-`F`), as Python's `X` format uses. -/
def hexDigitChar (n : Nat) : Char :=
  if n < 10 then Char.ofNat (48 + n) else Char.ofNat (55 + n)

/-- Translation of the f-string `0x` + `pixel` formatted `08X` (line 136).
Spelled as eight fixed nibbles: it agrees with Python whenever
`n < 2 ^ 32`, which holds for every packed pixel the script formats since
PIL RGBA channels are bytes. -/
def pyHex8 (n : Nat) : String :=
  "0x" ++ String.mk ([7, 6, 5, 4, 3, 2, 1, 0].map fun k => hexDigitChar (n / 16 ^ k % 16))

/-- The packed values of row `y` in emission order: the inner loop
`for x in range(img.width)` reading `pixels[y * img.width + x]` (lines 132-136). -/
def rowValues (img : Image) (y : Nat) : List String :=
  (List.range img.width).map fun x =>
    pyHex8 (packPixel (img.pixels.getD (y * img.width + x) zeroRGBA))

/-- One emitted pixel row: `"    " + ", ".join(row) + ","` (line 137). -/
def rowLine (img : Image) (y : Nat) : String :=
  "    " ++ String.intercalate ", " (rowValues img y) ++ ","

/-- The per-icon banner comment (line 127). -/
def commentLine (img : Image) (name : String) : String :=
  "/* " ++ name ++ " - " ++ toString img.width ++ "x" ++ toString img.height ++ " RGBA icon */"

/-- The per-icon array declaration with its explicit element count (line 128). -/
def declLine (img : Image) (name : String) : String :=
  "static const uint32_t " ++ name ++ "[" ++ toString (img.width * img.height) ++ "] = \x7b"

/-- The lines built up by `image_to_c_array` (lines 122-139), in order:
comment, declaration, one line per pixel row, closing brace. -/
def cArrayLines (img : Image) (name : String) : List String :=
  [commentLine img name, declLine img name]
    ++ (List.range img.height).map (rowLine img)
    ++ ["\x7d;"]

/-- Whole `image_to_c_array` return value: `"\n".join(lines)` (line 140). -/
def image_to_c_array (img : Image) (name : String) : String :=
  String.intercalate "\n" (cArrayLines img name)

/-- Modelled from the spec: one PIL drawing-primitive application. The
repository does not contain PIL; per the design document only shape intent
matters ("exact pixel-level anti-aliasing output is not a contract"), so a
primitive is abstracted to the set of flat pixel indices it touches and the
colour it writes at each touched index. -/
structure DrawOp where
  touched : Nat → Bool
  color : Nat → RGBA

/-- Modelled from the spec: `Image.new('RGBA', (size, size), (0, 0, 0, 0))`,
a square canvas whose every pixel starts fully transparent. -/
def imageNew (size : Nat) : Image :=
  ⟨size, size, List.replicate (size * size) zeroRGBA⟩

/-- Modelled from the spec: executing one drawing primitive writes its colour
at each touched index and leaves every other pixel unchanged. -/
def applyOp (img : Image) (op : DrawOp) : Image :=
  { img with
    pixels := (List.range img.pixels.length).map fun i =>
      if op.touched i then op.color i else img.pixels.getD i zeroRGBA }

/-- Sequential application of drawing primitives, in source order. -/
def applyOps (img : Image) (ops : List DrawOp) : Image :=
  ops.foldl applyOp img

/-- Modelled from the spec: the PIL `ImageDraw` primitives the script calls
(`line`, `arc`, `polygon`, `rectangle`), abstracted to functions from the
geometry arguments the script passes to a `DrawOp`. -/
structure DrawSemantics where
  line : List (Int × Int) → RGBA → Nat → DrawOp
  arc : List Int → Int → Int → RGBA → Nat → DrawOp
  polygon : List (Int × Int) → RGBA → DrawOp
  rectangle : List Int → RGBA → Nat → DrawOp

/-- A primitive only ever writes 8-bit channel values. -/
def OpInRange (op : DrawOp) : Prop :=
  ∀ i, PixelInRange (op.color i)

/-- Modelled from the spec: PIL primitives fed an in-range fill colour write
in-range channel values (anti-aliased blending stays within [0,255]). -/
def SemInRange (sem : DrawSemantics) : Prop :=
  (∀ pts c w, PixelInRange c → OpInRange (sem.line pts c w)) ∧
  (∀ box s e c w, PixelInRange c → OpInRange (sem.arc box s e c w)) ∧
  (∀ pts c, PixelInRange c → OpInRange (sem.polygon pts c)) ∧
  (∀ box c w, PixelInRange c → OpInRange (sem.rectangle box c w))

/-- The opaque white fill `(255, 255, 255, 255)` every icon stroke uses. -/
def white : RGBA := ⟨255, 255, 255, 255⟩

/-- Drawing calls of `render_chevron_left` (lines 31-40). -/
def chevronLeftOps (sem : DrawSemantics) (size : Nat) : List DrawOp :=
  let cx : Int := (size / 2 : Nat)
  let cy : Int := (size / 2 : Nat)
  [sem.line [(cx + 4, cy - 7), (cx - 4, cy), (cx + 4, cy + 7)] white 3]

/-- Drawing calls of `render_chevron_right` (lines 42-50). -/
def chevronRightOps (sem : DrawSemantics) (size : Nat) : List DrawOp :=
  let cx : Int := (size / 2 : Nat)
  let cy : Int := (size / 2 : Nat)
  [sem.line [(cx - 4, cy - 7), (cx + 4, cy), (cx - 4, cy + 7)] white 3]

/-- Drawing calls of `render_rotate_cw` (lines 52-61). -/
def rotateCwOps (sem : DrawSemantics) (size : Nat) : List DrawOp :=
  let s : Int := size
  [sem.arc [4, 4, s - 4, s - 4] 45 315 white 2,
   sem.polygon [(s - 6, 6), (s - 3, 10), (s - 10, 8)] white]

/-- Drawing calls of `render_rotate_ccw` (lines 63-72). -/
def rotateCcwOps (sem : DrawSemantics) (size : Nat) : List DrawOp :=
  let s : Int := size
  [sem.arc [4, 4, s - 4, s - 4] 225 495 white 2,
   sem.polygon [(6, 6), (10, 3), (8, 10)] white]

/-- Drawing calls of `render_zoom_in` (lines 74-83). -/
def zoomInOps (sem : DrawSemantics) (size : Nat) : List DrawOp :=
  let cx : Int := (size / 2 : Nat)
  let cy : Int := (size / 2 : Nat)
  [sem.line [(cx - 6, cy), (cx + 6, cy)] white 3,
   sem.line [(cx, cy - 6), (cx, cy + 6)] white 3]

/-- Drawing calls of `render_zoom_out` (lines 85-93). -/
def zoomOutOps (sem : DrawSemantics) (size : Nat) : List DrawOp :=
  let cx : Int := (size / 2 : Nat)
  let cy : Int := (size / 2 : Nat)
  [sem.line [(cx - 6, cy), (cx + 6, cy)] white 3]

/-- Drawing calls of `render_fit` (lines 95-105). -/
def fitOps (sem : DrawSemantics) (size : Nat) : List DrawOp :=
  let s : Int := size
  [sem.rectangle [4, 4, s - 5, s - 5] white 2,
   sem.line [(4, 4), (10, 10)] white 2,
   sem.line [(s - 5, s - 5), (s - 11, s - 11)] white 2]

/-- Drawing calls of `render_fullscreen` (lines 107-120). -/
def fullscreenOps (sem : DrawSemantics) (size : Nat) : List DrawOp :=
  let s : Int := size
  [sem.line [(2, 8), (2, 2), (8, 2)] white 2,
   sem.line [(s - 9, 2), (s - 3, 2), (s - 3, 8)] white 2,
   sem.line [(2, s - 9), (2, s - 3), (8, s - 3)] white 2,
   sem.line [(s - 9, s - 3), (s - 3, s - 3), (s - 3, s - 9)] white 2]

/-- Lines 31-40: transparent canvas, then the chevron stroke. -/
def render_chevron_left (sem : DrawSemantics) (size : Nat) : Image :=
  applyOps (imageNew size) (chevronLeftOps sem size)

/-- Lines 42-50. -/
def render_chevron_right (sem : DrawSemantics) (size : Nat) : Image :=
  applyOps (imageNew size) (chevronRightOps sem size)

/-- Lines 52-61. -/
def render_rotate_cw (sem : DrawSemantics) (size : Nat) : Image :=
  applyOps (imageNew size) (rotateCwOps sem size)

/-- Lines 63-72. -/
def render_rotate_ccw (sem : DrawSemantics) (size : Nat) : Image :=
  applyOps (imageNew size) (rotateCcwOps sem size)

/-- Lines 74-83. -/
def render_zoom_in (sem : DrawSemantics) (size : Nat) : Image :=
  applyOps (imageNew size) (zoomInOps sem size)

/-- Lines 85-93. -/
def render_zoom_out (sem : DrawSemantics) (size : Nat) : Image :=
  applyOps (imageNew size) (zoomOutOps sem size)

/-- Lines 95-105. -/
def render_fit (sem : DrawSemantics) (size : Nat) : Image :=
  applyOps (imageNew size) (fitOps sem size)

/-- Lines 107-120. -/
def render_fullscreen (sem : DrawSemantics) (size : Nat) : Image :=
  applyOps (imageNew size) (fullscreenOps sem size)

/-- Module-level constant `ICON_SIZE = 24` (line 17). -/
def ICON_SIZE : Nat := 24

/-- Module-level list `ICONS` of PNG file names (lines 20-29). `main` never
reads it; it is embedded to state that the output is independent of it. -/
def ICONS : List (String × String) :=
  [("icon_prev", "prev.png"),
   ("icon_next", "next.png"),
   ("icon_rotate_cw", "rotate_cw.png"),
   ("icon_rotate_ccw", "rotate_ccw.png"),
   ("icon_zoom_in", "zoom_in.png"),
   ("icon_zoom_out", "zoom_out.png"),
   ("icon_fit", "fit.png"),
   ("icon_fullscreen", "fullscreen.png")]

/-- The `icons` list `main` builds (lines 146-155): identifier paired with
its procedurally rendered surface, in source order. -/
def mainIcons (sem : DrawSemantics) : List (String × Image) :=
  [("toolbar_icon_prev", render_chevron_left sem ICON_SIZE),
   ("toolbar_icon_next", render_chevron_right sem ICON_SIZE),
   ("toolbar_icon_rotate_cw", render_rotate_cw sem ICON_SIZE),
   ("toolbar_icon_rotate_ccw", render_rotate_ccw sem ICON_SIZE),
   ("toolbar_icon_zoom_in", render_zoom_in sem ICON_SIZE),
   ("toolbar_icon_zoom_out", render_zoom_out sem ICON_SIZE),
   ("toolbar_icon_fit", render_fit sem ICON_SIZE),
   ("toolbar_icon_fullscreen", render_fullscreen sem ICON_SIZE)]

/-- The same catalog paired with each icon's drawing-primitive list, used to
speak about which pixels the primitives touch. -/
def mainCatalogOps (sem : DrawSemantics) (size : Nat) : List (String × List DrawOp) :=
  [("toolbar_icon_prev", chevronLeftOps sem size),
   ("toolbar_icon_next", chevronRightOps sem size),
   ("toolbar_icon_rotate_cw", rotateCwOps sem size),
   ("toolbar_icon_rotate_ccw", rotateCcwOps sem size),
   ("toolbar_icon_zoom_in", zoomInOps sem size),
   ("toolbar_icon_zoom_out", zoomOutOps sem size),
   ("toolbar_icon_fit", fitOps sem size),
   ("toolbar_icon_fullscreen", fullscreenOps sem size)]

/-- Per-icon blocks of the header: the loop at lines 172-174 appends each
icon's array text followed by a blank line. -/
def iconArrayBlocks (icons : List (String × Image)) : List String :=
  icons.flatMap fun p => [image_to_c_array p.2 p.1, ""]

/-- Lookup-table entries: the loop at lines 179-180 appends one
`    name,` line per icon, in catalog order. -/
def lookupTableLines (icons : List (String × Image)) : List String :=
  icons.map fun p => "    " ++ p.1 ++ ","

/-- The eight hard-coded index-constant lines (lines 183-190). -/
def indexDefineLines : List String :=
  ["#define TOOLBAR_ICON_PREV 0",
   "#define TOOLBAR_ICON_NEXT 1",
   "#define TOOLBAR_ICON_ROTATE_CW 2",
   "#define TOOLBAR_ICON_ROTATE_CCW 3",
   "#define TOOLBAR_ICON_ZOOM_IN 4",
   "#define TOOLBAR_ICON_ZOOM_OUT 5",
   "#define TOOLBAR_ICON_FIT 6",
   "#define TOOLBAR_ICON_FULLSCREEN 7"]

/-- The complete `output` list `main` builds (lines 157-192), in the exact
order of its `append` calls. -/
def emitDocument (icons : List (String × Image)) (size : Nat) : List String :=
  ["/*",
   " * Toolbar Icons for vib-OS Image Viewer",
   " * Auto-generated 24x24 RGBA icons",
   " */",
   "",
   "#ifndef TOOLBAR_ICONS_H",
   "#define TOOLBAR_ICONS_H",
   "",
   "#include \"types.h\"",
   "",
   "#define TOOLBAR_ICON_SIZE " ++ toString size,
   ""]
  ++ iconArrayBlocks icons
  ++ ["/* Icon array for toolbar */",
      "static const uint32_t* toolbar_icons[] = \x7b"]
  ++ lookupTableLines icons
  ++ ["\x7d;", ""]
  ++ indexDefineLines
  ++ ["", "#endif /* TOOLBAR_ICONS_H */"]

/-- The text `main` prints (line 194): `"\n".join(output)`. -/
def mainOutput (sem : DrawSemantics) : String :=
  String.intercalate "\n" (emitDocument (mainIcons sem) ICON_SIZE)

/-- The diagnostic printed by the PIL import fallback (line 13). `print`
writes it to standard output. -/
def importDiagnostic : String := "PIL not found. Installing..."

/-- Everything a run writes to standard output, by case over the import
fallback (lines 10-15): with PIL importable the document alone; with PIL
missing, the line-13 diagnostic first, then the document only if the
`pip3 install pillow` step makes the second import succeed. -/
def runStdout (pilAvailable installSucceeds : Bool) (sem : DrawSemantics) : List String :=
  if pilAvailable then [mainOutput sem]
  else if installSucceeds then [importDiagnostic, mainOutput sem]
  else [importDiagnostic]

/-- A run aborts exactly when PIL is missing and the install does not make
the re-import succeed (the second `from PIL import Image` raises). -/
def runFails (pilAvailable installSucceeds : Bool) : Bool :=
  !pilAvailable && !installSucceeds

/-- A drawing semantics that touches nothing, used to instantiate
universally quantified statements at a concrete value. -/
def untouchedOp : DrawOp := ⟨fun _ => false, fun _ => zeroRGBA⟩

/-- Concrete instantiation of the abstract PIL primitives. -/
def trivialSem : DrawSemantics :=
  ⟨fun _ _ _ => untouchedOp, fun _ _ _ _ _ => untouchedOp,
   fun _ _ => untouchedOp, fun _ _ _ => untouchedOp⟩

/-- A concrete 2x2 surface used to instantiate universally quantified
statements (pixel values chosen to exercise all four channels). -/
def sampleImage : Image :=
  ⟨2, 2, [⟨1, 2, 3, 4⟩, white, zeroRGBA, ⟨0, 0, 0, 255⟩]⟩

theorem flatMap_range_map {α : Type} (w : Nat) (f : Nat → α) :
    ∀ h : Nat, (List.range h).flatMap (fun y => (List.range w).map fun x => f (y * w + x))
      = (List.range (h * w)).map f := by
  intro h
  induction h with
  | zero => simp
  | succ h ih =>
    rw [List.range_succ, List.flatMap_append, ih,
      show (h + 1) * w = h * w + w from by ring, List.range_add, List.map_append,
      List.map_map]
    simp [Function.comp_def]

theorem map_getD_range {α : Type} (l : List α) (d : α) :
    (List.range l.length).map (fun i => l.getD i d) = l := by
  induction l with
  | nil => simp
  | cons x xs ih =>
    rw [List.length_cons, List.range_succ_eq_map, List.map_cons, List.map_map]
    simp only [List.getD_cons_zero, Function.comp_def, Nat.succ_eq_add_one,
      List.getD_cons_succ]
    rw [ih]

/-- C4: flattening the per-row emitted values (the y-then-x double loop of
lines 130-137) yields exactly the packed pixels in row-major storage order,
one value per pixel: the row grouping neither reorders, drops, nor
duplicates a value. -/
theorem C4_row_major_emission (img : Image)
    (h : img.pixels.length = img.width * img.height) :
    (List.range img.height).flatMap (rowValues img)
      = img.pixels.map (fun p => pyHex8 (packPixel p)) := by
  unfold rowValues
  rw [flatMap_range_map img.width
    (fun i => pyHex8 (packPixel (img.pixels.getD i zeroRGBA))) img.height]
  rw [show img.height * img.width = img.pixels.length from by
    rw [Nat.mul_comm img.height img.width, ← h]]
  have hmap := congrArg (List.map fun p => pyHex8 (packPixel p)) (map_getD_range img.pixels zeroRGBA)
  rw [List.map_map] at hmap
  exact hmap

/-- C4 witness on the concrete 2x2 surface. -/
theorem C4_row_major_emission_witness :
    sampleImage.pixels.length = sampleImage.width * sampleImage.height ∧
    (List.range sampleImage.height).flatMap (rowValues sampleImage)
      = sampleImage.pixels.map (fun p => pyHex8 (packPixel p)) :=
  ⟨by decide, C4_row_major_emission sampleImage (by decide)⟩

/-- The ordering the claim C5 asserts: somewhere in the per-icon block the
array declaration appears strictly before the name-and-dimensions comment. -/
def DeclThenComment (img : Image) (name : String) : Prop :=
  ∃ i : Fin (cArrayLines img name).length, ∃ j : Fin (cArrayLines img name).length,
    (i : Nat) < (j : Nat) ∧
    (cArrayLines img name).get i = declLine img name ∧
    (cArrayLines img name).get j = commentLine img name

/-- C5 counterexample: for the concrete 2x2 surface named `plus`, the
emitted block never places the declaration before the comment — the
comment is line 0 and the declaration line 1. -/
theorem C5_counterexample_decl_not_followed_by_comment :
    ¬ DeclThenComment sampleImage "plus" := by
  unfold DeclThenComment
  decide

/-- C5 amended: the per-icon emission produces the array declaration (named
after the icon, element count `width*height`) PRECEDED, not followed, by the
comment line stating the icon's name and dimensions; rows and the closing
brace follow the declaration. -/
theorem C5_amended_comment_precedes_decl (img : Image) (name : String) :
    (cArrayLines img name).get? 0 = some (commentLine img name) ∧
    (cArrayLines img name).get? 1 = some (declLine img name) ∧
    declLine img name = "static const uint32_t " ++ name ++ "["
      ++ toString (img.width * img.height) ++ "] = \x7b" ∧
    commentLine img name = "/* " ++ name ++ " - " ++ toString img.width ++ "x"
      ++ toString img.height ++ " RGBA icon */" :=
  ⟨rfl, rfl, rfl, rfl⟩

/-- The eight catalog identifiers in `main`'s order. -/
def mainIconNames : List String :=
  ["toolbar_icon_prev", "toolbar_icon_next", "toolbar_icon_rotate_cw",
   "toolbar_icon_rotate_ccw", "toolbar_icon_zoom_in", "toolbar_icon_zoom_out",
   "toolbar_icon_fit", "toolbar_icon_fullscreen"]

/-- ASCII uppercase of one character, as Python's `str.upper` acts on the
identifiers at hand (lowercase letters, digits and underscores). -/
def upperChar (c : Char) : Char :=
  if 97 ≤ c.toNat ∧ c.toNat ≤ 122 then Char.ofNat (c.toNat - 32) else c

/-- ASCII uppercase of a string; relates an icon identifier to the name of
its emitted index constant. -/
def upperAscii (s : String) : String :=
  String.mk (s.data.map upperChar)

/-- The hard-coded index constants (lines 183-190) are exactly one
`#define <UPPERCASE-NAME> <k>` line per icon with `k` the icon's zero-based
position in the catalog. -/
theorem indexDefines_match_positions :
    indexDefineLines = mainIconNames.enum.map
      (fun p => "#define " ++ upperAscii p.2 ++ " " ++ toString p.1) := by
  decide

/-- C2: the integer constant emitted for each icon (hard-coded lines
183-190) equals the icon's zero-based position in the catalog, and the
lookup table has exactly one `    name,` entry per icon, in catalog
order. -/
theorem C2_index_table_consistent (sem : DrawSemantics) :
    indexDefineLines = ((mainIcons sem).map Prod.fst).enum.map
      (fun p => "#define " ++ upperAscii p.2 ++ " " ++ toString p.1) ∧
    lookupTableLines (mainIcons sem)
      = ((mainIcons sem).map Prod.fst).map (fun n => "    " ++ n ++ ",") ∧
    (lookupTableLines (mainIcons sem)).length = (mainIcons sem).length := by
  refine ⟨?_, rfl, rfl⟩
  show indexDefineLines = mainIconNames.enum.map
    (fun p => "#define " ++ upperAscii p.2 ++ " " ++ toString p.1)
  exact indexDefines_match_positions

/-- Document segments in the order the whole-set emission contract names
them: (a) banner. -/
def bannerSection : List String :=
  ["/*", " * Toolbar Icons for vib-OS Image Viewer", " * Auto-generated 24x24 RGBA icons",
   " */", ""]

/-- Segment (b): include-guard opening. -/
def guardOpenSection : List String :=
  ["#ifndef TOOLBAR_ICONS_H", "#define TOOLBAR_ICONS_H", ""]

/-- Segment (c): dependency include. -/
def includeSection : List String :=
  ["#include \"types.h\"", ""]

/-- Segment (d): the dimension constant. -/
def dimensionSection (size : Nat) : List String :=
  ["#define TOOLBAR_ICON_SIZE " ++ toString size, ""]

/-- Segment (e): one per-icon array declaration per icon, in order. -/
def iconArraysSection (icons : List (String × Image)) : List String :=
  icons.flatMap fun p => [image_to_c_array p.2 p.1, ""]

/-- Segment (f): the lookup table, one entry per icon in catalog order. -/
def lookupSection (icons : List (String × Image)) : List String :=
  ["/* Icon array for toolbar */", "static const uint32_t* toolbar_icons[] = \x7b"]
    ++ icons.map (fun p => "    " ++ p.1 ++ ",")
    ++ ["\x7d;", ""]

/-- Segment (g): one index constant per icon, position `k` getting `k`. -/
def indexSection (icons : List (String × Image)) : List String :=
  (icons.map Prod.fst).enum.map
    (fun p => "#define " ++ upperAscii p.2 ++ " " ++ toString p.1) ++ [""]

/-- Segment (h): include-guard closing. -/
def guardCloseSection : List String :=
  ["#endif /* TOOLBAR_ICONS_H */"]

/-- C3: the document `main` emits is exactly the eight contract segments in
order: banner, guard opening, dependency include, dimension constant,
per-icon arrays in catalog order, lookup table, per-icon index constants,
guard closing. -/
theorem C3_document_structure (sem : DrawSemantics) :
    emitDocument (mainIcons sem) ICON_SIZE
      = bannerSection ++ guardOpenSection ++ includeSection
        ++ dimensionSection ICON_SIZE ++ iconArraysSection (mainIcons sem)
        ++ lookupSection (mainIcons sem) ++ indexSection (mainIcons sem)
        ++ guardCloseSection := by
  have hidx : indexSection (mainIcons sem) = indexDefineLines ++ [""] := by
    unfold indexSection
    rw [show ((mainIcons sem).map Prod.fst) = mainIconNames from rfl,
      indexDefines_match_positions]
  simp only [emitDocument, bannerSection, guardOpenSection, includeSection,
    dimensionSection, iconArraysSection, lookupSection, guardCloseSection, hidx,
    iconArrayBlocks, lookupTableLines, List.append_assoc, List.cons_append,
    List.nil_append]

theorem getD_map_range {α : Type} (n : Nat) (f : Nat → α) (i : Nat) (d : α) :
    ((List.range n).map f).getD i d = if i < n then f i else d := by
  by_cases h : i < n
  · have hlen : i < ((List.range n).map f).length := by simpa using h
    rw [List.getD_eq_getElem _ _ hlen, List.getElem_map, List.getElem_range, if_pos h]
  · rw [List.getD_eq_default _ _ (by simpa using Nat.le_of_not_lt h), if_neg h]

theorem applyOp_pixels_length (img : Image) (op : DrawOp) :
    (applyOp img op).pixels.length = img.pixels.length := by
  simp [applyOp]

theorem applyOps_pixels_length (ops : List DrawOp) :
    ∀ img : Image, (applyOps img ops).pixels.length = img.pixels.length := by
  induction ops with
  | nil => intro img; rfl
  | cons op ops ih =>
    intro img
    show (applyOps (applyOp img op) ops).pixels.length = _
    rw [ih, applyOp_pixels_length]

theorem applyOp_getD (img : Image) (op : DrawOp) (i : Nat) :
    (applyOp img op).pixels.getD i zeroRGBA
      = if i < img.pixels.length then
          (if op.touched i then op.color i else img.pixels.getD i zeroRGBA)
        else zeroRGBA := by
  simp only [applyOp]
  rw [getD_map_range]

theorem applyOps_getD_untouched (ops : List DrawOp) :
    ∀ (img : Image) (i : Nat), (∀ op ∈ ops, op.touched i = false) →
      (applyOps img ops).pixels.getD i zeroRGBA = img.pixels.getD i zeroRGBA := by
  induction ops with
  | nil => intro img i _; rfl
  | cons op ops ih =>
    intro img i hop
    show (applyOps (applyOp img op) ops).pixels.getD i zeroRGBA = _
    rw [ih (applyOp img op) i (fun o ho => hop o (List.mem_cons_of_mem _ ho))]
    rw [applyOp_getD]
    have ht : op.touched i = false := hop op (List.mem_cons_self _ _)
    by_cases h : i < img.pixels.length
    · simp [h, ht]
    · rw [if_neg h, List.getD_eq_default _ _ (Nat.le_of_not_lt h)]

theorem applyOps_getD_inRange (ops : List DrawOp) :
    ∀ img : Image, (∀ op ∈ ops, OpInRange op) →
      (∀ i, PixelInRange (img.pixels.getD i zeroRGBA)) →
      ∀ i, PixelInRange ((applyOps img ops).pixels.getD i zeroRGBA) := by
  induction ops with
  | nil => intro img _ himg i; exact himg i
  | cons op ops ih =>
    intro img hops himg i
    show PixelInRange ((applyOps (applyOp img op) ops).pixels.getD i zeroRGBA)
    refine ih (applyOp img op) (fun o ho => hops o (List.mem_cons_of_mem _ ho)) ?_ i
    intro j
    rw [applyOp_getD]
    by_cases h : j < img.pixels.length
    · by_cases ht : op.touched j
      · simp only [if_pos h, if_pos ht]
        exact hops op (List.mem_cons_self _ _) j
      · simp only [if_pos h, if_neg ht]
        exact himg j
    · rw [if_neg h]
      decide

theorem imageNew_getD (S i : Nat) :
    (imageNew S).pixels.getD i zeroRGBA = zeroRGBA := by
  by_cases h : i < S * S
  · rw [List.getD_eq_getElem _ _ (by simpa [imageNew] using h)]
    simp [imageNew]
  · rw [List.getD_eq_default _ _ (by simpa [imageNew] using Nat.le_of_not_lt h)]

theorem chevronLeftOps_inRange (sem : DrawSemantics) (hsem : SemInRange sem) (S : Nat) :
    ∀ op ∈ chevronLeftOps sem S, OpInRange op := by
  intro op hop
  simp only [chevronLeftOps, List.mem_singleton] at hop
  subst hop
  exact hsem.1 _ _ _ (by decide)

theorem chevronRightOps_inRange (sem : DrawSemantics) (hsem : SemInRange sem) (S : Nat) :
    ∀ op ∈ chevronRightOps sem S, OpInRange op := by
  intro op hop
  simp only [chevronRightOps, List.mem_singleton] at hop
  subst hop
  exact hsem.1 _ _ _ (by decide)

theorem rotateCwOps_inRange (sem : DrawSemantics) (hsem : SemInRange sem) (S : Nat) :
    ∀ op ∈ rotateCwOps sem S, OpInRange op := by
  intro op hop
  simp only [rotateCwOps, List.mem_cons, List.mem_singleton, List.not_mem_nil, or_false] at hop
  rcases hop with h | h <;> subst h
  · exact hsem.2.1 _ _ _ _ _ (by decide)
  · exact hsem.2.2.1 _ _ (by decide)

theorem rotateCcwOps_inRange (sem : DrawSemantics) (hsem : SemInRange sem) (S : Nat) :
    ∀ op ∈ rotateCcwOps sem S, OpInRange op := by
  intro op hop
  simp only [rotateCcwOps, List.mem_cons, List.mem_singleton, List.not_mem_nil, or_false] at hop
  rcases hop with h | h <;> subst h
  · exact hsem.2.1 _ _ _ _ _ (by decide)
  · exact hsem.2.2.1 _ _ (by decide)

theorem zoomInOps_inRange (sem : DrawSemantics) (hsem : SemInRange sem) (S : Nat) :
    ∀ op ∈ zoomInOps sem S, OpInRange op := by
  intro op hop
  simp only [zoomInOps, List.mem_cons, List.mem_singleton, List.not_mem_nil, or_false] at hop
  rcases hop with h | h <;> subst h <;> exact hsem.1 _ _ _ (by decide)

theorem zoomOutOps_inRange (sem : DrawSemantics) (hsem : SemInRange sem) (S : Nat) :
    ∀ op ∈ zoomOutOps sem S, OpInRange op := by
  intro op hop
  simp only [zoomOutOps, List.mem_singleton] at hop
  subst hop
  exact hsem.1 _ _ _ (by decide)

theorem fitOps_inRange (sem : DrawSemantics) (hsem : SemInRange sem) (S : Nat) :
    ∀ op ∈ fitOps sem S, OpInRange op := by
  intro op hop
  simp only [fitOps, List.mem_cons, List.mem_singleton, List.not_mem_nil, or_false] at hop
  rcases hop with h | h | h <;> subst h
  · exact hsem.2.2.2 _ _ _ (by decide)
  · exact hsem.1 _ _ _ (by decide)
  · exact hsem.1 _ _ _ (by decide)

theorem fullscreenOps_inRange (sem : DrawSemantics) (hsem : SemInRange sem) (S : Nat) :
    ∀ op ∈ fullscreenOps sem S, OpInRange op := by
  intro op hop
  simp only [fullscreenOps, List.mem_cons, List.mem_singleton, List.not_mem_nil, or_false] at hop
  rcases hop with h | h | h | h <;> subst h <;> exact hsem.1 _ _ _ (by decide)

theorem mainCatalogOps_ops_inRange (sem : DrawSemantics) (hsem : SemInRange sem) (S : Nat) :
    ∀ entry ∈ mainCatalogOps sem S, ∀ op ∈ entry.2, OpInRange op := by
  intro entry hentry
  simp only [mainCatalogOps, List.mem_cons, List.mem_singleton, List.not_mem_nil,
    or_false] at hentry
  rcases hentry with h | h | h | h | h | h | h | h <;> subst h
  · exact chevronLeftOps_inRange sem hsem S
  · exact chevronRightOps_inRange sem hsem S
  · exact rotateCwOps_inRange sem hsem S
  · exact rotateCcwOps_inRange sem hsem S
  · exact zoomInOps_inRange sem hsem S
  · exact zoomOutOps_inRange sem hsem S
  · exact fitOps_inRange sem hsem S
  · exact fullscreenOps_inRange sem hsem S

/-- C6: for every icon in the catalog and any positive dimension `S` (and
any in-range primitive semantics), the rendered surface has exactly `S*S`
pixels, every pixel has a defined in-range value, a pixel touched by no
primitive keeps the transparent default `(0,0,0,0)`, and that default packs
to `0x00000000`. -/
theorem C6_render_invariants (sem : DrawSemantics) (hsem : SemInRange sem)
    (S : Nat) (hS : 0 < S) :
    ∀ entry ∈ mainCatalogOps sem S,
      (applyOps (imageNew S) entry.2).pixels.length = S * S ∧
      (∀ i, PixelInRange ((applyOps (imageNew S) entry.2).pixels.getD i zeroRGBA)) ∧
      (∀ i, (∀ op ∈ entry.2, op.touched i = false) →
        (applyOps (imageNew S) entry.2).pixels.getD i zeroRGBA = zeroRGBA) ∧
      packPixel zeroRGBA = 0 := by
  intro entry hentry
  refine ⟨?_, ?_, ?_, by decide⟩
  · rw [applyOps_pixels_length]
    simp [imageNew]
  · exact applyOps_getD_inRange entry.2 (imageNew S)
      (mainCatalogOps_ops_inRange sem hsem S entry hentry)
      (fun i => by rw [imageNew_getD]; decide)
  · intro i hunt
    rw [applyOps_getD_untouched entry.2 (imageNew S) i hunt, imageNew_getD]

theorem trivialSem_inRange : SemInRange trivialSem := by
  refine ⟨?_, ?_, ?_, ?_⟩
  · intro pts c w _ i
    show PixelInRange zeroRGBA
    decide
  · intro box s e c w _ i
    show PixelInRange zeroRGBA
    decide
  · intro pts c _ i
    show PixelInRange zeroRGBA
    decide
  · intro box c w _ i
    show PixelInRange zeroRGBA
    decide

/-- C6 witness at the trivial semantics, `S = 24`, on the catalog's first
entry (the left chevron). -/
theorem C6_render_invariants_witness :
    SemInRange trivialSem ∧ (0 : Nat) < 24 ∧
    ((applyOps (imageNew 24) (chevronLeftOps trivialSem 24)).pixels.length = 24 * 24 ∧
     (∀ i, PixelInRange
        ((applyOps (imageNew 24) (chevronLeftOps trivialSem 24)).pixels.getD i zeroRGBA)) ∧
     (∀ i, (∀ op ∈ chevronLeftOps trivialSem 24, op.touched i = false) →
        (applyOps (imageNew 24) (chevronLeftOps trivialSem 24)).pixels.getD i zeroRGBA
          = zeroRGBA) ∧
     packPixel zeroRGBA = 0) :=
  ⟨trivialSem_inRange, by decide,
    C6_render_invariants trivialSem trivialSem_inRange 24 (by decide)
      ("toolbar_icon_prev", chevronLeftOps trivialSem 24) (List.Mem.head _)⟩

/-- C7: the pipeline is a pure function of its inputs — two runs over the
same dimension/catalog (embedded as the same primitive semantics) print
byte-identical text; nothing
else (time, randomness, environment) flows into `mainOutput`. -/
theorem C7_deterministic_output (sem₁ sem₂ : DrawSemantics) (h : sem₁ = sem₂) :
    mainOutput sem₁ = mainOutput sem₂ := by
  rw [h]

/-- C7 witness: two runs at the concrete trivial semantics. -/
theorem C7_deterministic_output_witness :
    mainOutput trivialSem = mainOutput trivialSem :=
  C7_deterministic_output trivialSem trivialSem rfl

/-- C8 shows the claim fails in the code: when the first `from PIL import
Image` raises, line 13's `print` sends `PIL not found. Installing...` to
STANDARD OUTPUT (not standard error). A failing run (install does not fix
the import) has thus written a non-empty line to stdout, and a recovering
run prepends that diagnostic to the generated document. -/
theorem C8_failing_run_writes_to_stdout :
    runFails false false = true ∧
    runStdout false false trivialSem = [importDiagnostic] ∧
    importDiagnostic ≠ "" ∧
    runStdout false true trivialSem = [importDiagnostic, mainOutput trivialSem] ∧
    runStdout true true trivialSem = [mainOutput trivialSem] :=
  ⟨rfl, rfl, by decide, rfl, rfl⟩

/-- C9 counterexample: a catalog with a duplicated identifier is emitted in
full — the generated lookup table simply lists `dup` twice and the document
is produced, with no failure before output; the script has no duplicate
check at all. -/
theorem C9_counterexample_duplicate_emitted :
    lookupTableLines [("dup", imageNew 1), ("dup", imageNew 1)]
      = ["    dup,", "    dup,"] ∧
    emitDocument [("dup", imageNew 1), ("dup", imageNew 1)] 24 ≠ [] ∧
    (iconArrayBlocks [("dup", imageNew 1), ("dup", imageNew 1)]).length = 4 := by
  refine ⟨by decide, by decide, by decide⟩

/-- C9 amended: the script never checks identifiers for uniqueness (a
duplicated catalog would be emitted, not rejected); what does hold is that
the one hard-coded catalog a run uses has pairwise-distinct identifiers, so
no run ever emits a duplicate symbol. -/
theorem C9_amended_catalog_identifiers_nodup (sem : DrawSemantics) :
    ((mainIcons sem).map Prod.fst).Nodup := by
  rw [show (mainIcons sem).map Prod.fst = mainIconNames from rfl]
  decide

/-- Parameterisation of the emitted text over the ambient inputs `main`
could have read but does not: the module-level `ICONS` list (line 20) and
the on-disk PNG bytes. The body of `main` (lines 142-194) references
neither, so the result is `mainOutput sem` regardless. -/
def mainOutputInEnv (iconsModule : List (String × String))
    (pngFiles : String → Option (List Nat)) (sem : DrawSemantics) : String :=
  mainOutput sem

/-- C10: the generated document does not depend on the `ICONS` list of PNG
file names nor on any on-disk asset: runs differing only in those produce
identical text, because the pipeline uses only `ICON_SIZE` and the
procedural render functions. -/
theorem C10_output_independent_of_assets (l₁ l₂ : List (String × String))
    (f₁ f₂ : String → Option (List Nat)) (sem : DrawSemantics) :
    mainOutputInEnv l₁ f₁ sem = mainOutputInEnv l₂ f₂ sem := rfl
